import Mathlib

/-!
Verification of the Signaloid C0-microSD IMU weighted-mean coprocessor
(`src/main.c`) against its natural-language specification.

The development has two layers.

Layer B (the command loop of `main`): a byte-level machine model. Shared
memory regions are byte arrays `Nat → Nat` (offset to byte value, little
endian as on the RISC-V target). One command cycle of the infinite loop is
modelled as the finite trace of observable states (status register,
indicator/LED word, output region) produced by the straight-line body of
the loop, with the command register held fixed for the cycle, as the host
protocol requires. The call to `getWeightedMean` is abstracted as a
parameter `e : List Nat → Nat` mapping the list of float32 bit patterns
the loop passes in to the float32 bit pattern of the result, so every
marshaling/state-machine theorem holds for the real engine in particular.

Layer A (the engine `getWeightedMean`): the float arithmetic is embedded
into `ℝ`, with the external UxHw numeric capability modelled from the
spec as sample mean / central second moment / weight-normalized
aggregation.
-/

/-! ### Layer B: byte-level memory -/

/-- A byte-addressed memory region: offset to stored byte. -/
def Mem : Type := Nat → Nat

/-- The all-zeros memory region. -/
def zeroMem : Mem := fun _ => 0

/-- Write a list of bytes into memory starting at byte offset `off`. -/
def writeBytes (m : Mem) (off : Nat) (bytes : List Nat) : Mem :=
  fun a => if off ≤ a ∧ a - off < bytes.length then bytes.getD (a - off) 0 else m a

/-- Little-endian 32-bit load, as the `MOSIBufferUInt[0]` access performs. -/
def readU32 (m : Mem) (off : Nat) : Nat :=
  m off % 256 + 2 ^ 8 * (m (off + 1) % 256) + 2 ^ 16 * (m (off + 2) % 256) +
    2 ^ 24 * (m (off + 3) % 256)

/-- Little-endian byte list of a 32-bit value (a `uint32_t` store). -/
def u32Bytes (v : Nat) : List Nat :=
  [v % 256, v / 2 ^ 8 % 256, v / 2 ^ 16 % 256, v / 2 ^ 24 % 256]

/-- Little-endian byte list of a 64-bit value (a `double` store). -/
def u64Bytes (v : Nat) : List Nat :=
  [v % 256, v / 2 ^ 8 % 256, v / 2 ^ 16 % 256, v / 2 ^ 24 % 256,
   v / 2 ^ 32 % 256, v / 2 ^ 40 % 256, v / 2 ^ 48 % 256, v / 2 ^ 56 % 256]

/-! ### IEEE-754 bit-pattern helpers

`main.c` stores the `float` result into a `volatile double *` slot, so the
model needs the exact float32-to-float64 widening on bit patterns (the C
conversion `(double)f` is exact). -/

/-- Sign bit of a float32 bit pattern. -/
def f32SignBit (b : Nat) : Nat := b / 2 ^ 31 % 2

/-- Biased exponent field of a float32 bit pattern. -/
def f32ExpField (b : Nat) : Nat := b / 2 ^ 23 % 2 ^ 8

/-- Mantissa field of a float32 bit pattern. -/
def f32MantField (b : Nat) : Nat := b % 2 ^ 23

/-- Bit pattern of the IEEE-754 binary64 value obtained by (exactly)
widening the binary32 value with bit pattern `b`, covering zero,
subnormal, normal, and infinity/NaN inputs. -/
def f64OfF32Bits (b : Nat) : Nat :=
  let s := f32SignBit b
  let e := f32ExpField b
  let m := f32MantField b
  if e = 0 then
    if m = 0 then s * 2 ^ 63
    else
      let k := Nat.log2 m
      s * 2 ^ 63 + (k + 874) * 2 ^ 52 + (m - 2 ^ k) * 2 ^ (52 - k)
  else if e = 255 then s * 2 ^ 63 + 2047 * 2 ^ 52 + m * 2 ^ 29
  else s * 2 ^ 63 + (e + 896) * 2 ^ 52 + m * 2 ^ 29

/-- Exact rational value of a float32 bit pattern (infinities and NaNs,
which never arise in the concrete inputs considered, map to 0). -/
def f32Val (b : Nat) : ℚ :=
  let sg : ℚ := if f32SignBit b = 1 then -1 else 1
  let e := f32ExpField b
  let m := f32MantField b
  if e = 0 then sg * m / 2 ^ 149
  else if e = 255 then 0
  else sg * ((2 ^ 23 + m) * 2 ^ e) / 2 ^ 150

/-! ### Layer B: the command loop of `main`

Registers and enumeration values follow `main.c` and the platform
constants it uses. -/

/-- The status register enumeration (`SignaloidSoCStatus`). -/
inductive SoCStatus
  | waitingForCommand
  | calculating
  | done
  | invalidCommand
deriving DecidableEq, Repr

/-- Observable device state during one command cycle: the status
register, the SoC-control indicator word (`true` = `0xffffffff`), and the
MISO (output) region bytes.  The MOSI (input) region is read-only for the
device — `main` never stores to it — so it is an input of the transition
functions, not a state component. -/
@[ext]
structure SoCState where
  status : SoCStatus
  ledOn : Bool
  miso : Mem

/-- The sample count `main` uses: `uint16_t numSamples = MOSIBufferUInt[0]`
— the 32-bit word at offset 0 of the MOSI buffer truncated to 16 bits by
the `uint16_t` declaration. -/
def sampleCount (mosi : Mem) : Nat := readU32 mosi 0 % 2 ^ 16

/-- The float32 bit patterns `getWeightedMean` is actually passed:
`getWeightedMean(MOSIBuffer + sizeof(uint32_t), numSamples)` advances the
`volatile double *` cursor by `4 * sizeof(double) = 32` bytes, and the
callee then reads consecutive 4-byte floats from that address, i.e. the
words at byte offsets `32 + 4*i`. -/
def sampleBatchRead (mosi : Mem) : List Nat :=
  (List.range (sampleCount mosi)).map fun i => readU32 mosi (32 + 4 * i)

/-- Modelled from the spec (not from `main.c`): the sample batch the
specification describes — `readU32 mosi 0`-many consecutive float32
values starting at byte offset 4, immediately after the 32-bit count.
Used only to compare the code's marshaling against the spec's words. -/
def sampleBatchSpec (mosi : Mem) : List Nat :=
  (List.range (readU32 mosi 0)).map fun i => readU32 mosi (4 + 4 * i)

/-- The trace of observable states of one iteration of the `while (1)`
loop in `main`, entered from state `s` with the command register holding
`c` for the whole cycle and the MOSI region holding `mosi`.  One state is
recorded after every volatile store the code performs, in program order:

* status := waitingForCommand (line 65);
* (the poll at line 70 exits iff `c ≠ 0`; for `c = 0` the device spins
  forever and the trace stops);
* status := calculating (line 75); SoCControl := `0xffffffff` (line 80);
* for `c = 1` (kCalculateWindow): the `double` store
  `MISOBuffer[0] = result` (line 104), the `uint32_t` store
  `*resultBufferSize = 4` (line 112), status := done (line 117);
* for any other `c`: status := invalidCommand (line 121);
* SoCControl := `0x00000000` (line 128).

`e` abstracts `getWeightedMean` at the bit-pattern level. -/
def cycleTrace (e : List Nat → Nat) (c : Nat) (mosi : Mem) (s : SoCState) :
    List SoCState :=
  let t0 : SoCState := { s with status := .waitingForCommand }
  if c = 0 then [t0]
  else
    let t1 := { t0 with status := .calculating }
    let t2 := { t1 with ledOn := true }
    if c = 1 then
      let r := e (sampleBatchRead mosi)
      let t3 := { t2 with miso := writeBytes t2.miso 0 (u64Bytes (f64OfF32Bits r)) }
      let t4 := { t3 with miso := writeBytes t3.miso 0 (u32Bytes 4) }
      let t5 := { t4 with status := .done }
      let t6 := { t5 with ledOn := false }
      [t0, t1, t2, t3, t4, t5, t6]
    else
      let t3 := { t2 with status := .invalidCommand }
      let t4 := { t3 with ledOn := false }
      [t0, t1, t2, t3, t4]

/-- The state at the end of one command cycle (the last state of
`cycleTrace`). -/
def runCycle (e : List Nat → Nat) (c : Nat) (mosi : Mem) (s : SoCState) :
    SoCState :=
  (cycleTrace e c mosi s).getLastD s

/-- `runCycle` is literally the last state of the cycle trace, spelled
out per branch. -/
theorem runCycle_eq (e : List Nat → Nat) (c : Nat) (mosi : Mem) (s : SoCState) :
    runCycle e c mosi s =
      if c = 0 then { s with status := .waitingForCommand }
      else if c = 1 then
        { status := .done, ledOn := false,
          miso := writeBytes
            (writeBytes s.miso 0
              (u64Bytes (f64OfF32Bits (e (sampleBatchRead mosi))))) 0
            (u32Bytes 4) }
      else { status := .invalidCommand, ledOn := false, miso := s.miso } := by
  by_cases h0 : c = 0
  · simp [runCycle, cycleTrace, h0]
  · by_cases h1 : c = 1
    · simp [runCycle, cycleTrace, h0, h1, List.getLastD]
    · simp [runCycle, cycleTrace, h0, h1, List.getLastD]

/-! ### Layer A: the weighted-mean engine `getWeightedMean`

Float arithmetic is embedded into `ℝ`.  The external UxHw capability
(`UxHwFloatDistFromSamples` / `UxHwFloatNthMoment` /
`UxHwFloatDistFromWeightedSamples`) is not part of this repository; per
the spec it is modelled as the sample mean, the central second moment,
and the weight-normalized aggregation `Σ vᵢ·wᵢ / Σ wᵢ`. -/

/-- Modelled from the spec: `UxHwFloatNthMoment(dist, 1)` — the first
moment of the distribution fitted to the samples, i.e. the sample mean. -/
noncomputable def distMean (values : List ℝ) : ℝ := values.sum / values.length

/-- Modelled from the spec: `UxHwFloatNthMoment(dist, 2)` — the second
central moment of the distribution fitted to the samples. -/
noncomputable def distVariance (values : List ℝ) : ℝ :=
  ((values.map fun v => (v - distMean values) ^ 2).sum) / values.length

/-- The per-sample weight computed by the loop body in `getWeightedMean`
(`main.c` lines 29–37): `1.0f` by default, replaced by
`expf(-(diff*diff) / (2.0f*variance))` when `variance > 0.0f`. -/
noncomputable def gaussWeight (mean variance v : ℝ) : ℝ :=
  if 0 < variance then Real.exp (-((v - mean) * (v - mean)) / (2 * variance)) else 1

/-- The `weightedSamples` array `getWeightedMean` builds: each sample
paired with its weight. -/
noncomputable def weightedSamplesOf (mean variance : ℝ) (values : List ℝ) :
    List (ℝ × ℝ) :=
  values.map fun v => (v, gaussWeight mean variance v)

/-- Modelled from the spec: `UxHwFloatDistFromWeightedSamples` — the
weight-normalized aggregation `Σ vᵢ·wᵢ / Σ wᵢ` over the (value, weight)
pairs. -/
noncomputable def combineWeightedSamples (ws : List (ℝ × ℝ)) : ℝ :=
  ((ws.map fun p => p.1 * p.2).sum) / ((ws.map Prod.snd).sum)

/-- The engine `getWeightedMean` of `main.c`: fit mean and variance,
weight every sample with `gaussWeight`, and combine. -/
noncomputable def getWeightedMean (values : List ℝ) : ℝ :=
  combineWeightedSamples
    (weightedSamplesOf (distMean values) (distVariance values) values)

/-- On a constant batch the fitted mean is the common value. -/
theorem distMean_replicate (n : ℕ) (k : ℝ) (hn : 0 < n) :
    distMean (List.replicate n k) = k := by
  have hn' : (n : ℝ) ≠ 0 := Nat.cast_ne_zero.mpr hn.ne'
  simp [distMean, List.sum_replicate, nsmul_eq_mul]
  exact mul_div_cancel_left₀ k hn'

/-- On a constant batch the fitted variance vanishes. -/
theorem distVariance_replicate (n : ℕ) (k : ℝ) (hn : 0 < n) :
    distVariance (List.replicate n k) = 0 := by
  simp [distVariance, distMean_replicate n k hn, List.map_replicate,
    List.sum_replicate]

/-- The engine returns the common value exactly on any non-empty constant
batch: variance is 0, so every weight is 1 and the aggregation gives
`(n*k)/n = k`. -/
theorem getWeightedMean_const (n : ℕ) (k : ℝ) (hn : 0 < n) :
    getWeightedMean (List.replicate n k) = k := by
  have hv := distVariance_replicate n k hn
  have hw : gaussWeight (distMean (List.replicate n k)) 0 = fun _ => (1 : ℝ) := by
    funext v
    simp [gaussWeight]
  have hn' : (n : ℝ) ≠ 0 := Nat.cast_ne_zero.mpr hn.ne'
  simp [getWeightedMean, weightedSamplesOf, combineWeightedSamples, hv,
    gaussWeight, List.map_replicate, List.sum_replicate, nsmul_eq_mul]
  exact mul_div_cancel_left₀ k hn'

/-! ### Concrete inputs used to evaluate the code at failing inputs -/

/-- The device state on entry of a cycle: waiting, indicator off, output
region zeroed. -/
def initState : SoCState := ⟨SoCStatus.waitingForCommand, false, zeroMem⟩

/-- IEEE-754 binary32 bit pattern of `3.0f`. -/
def bits3p0 : Nat := 0x40400000

/-- IEEE-754 binary32 bit pattern of `1.0f`. -/
def bits1p0 : Nat := 0x3F800000

/-- MOSI (input region) contents for the C1 scenario: sample count 3 at
offset 0, and the three samples `3.0f` stored both at the spec's offsets
4, 8, 12 and at the offsets 32, 36, 40 that the code actually reads, so
the input is well-formed under either reading and the engine result is
exactly `3.0f` either way. -/
def mosiC1 : Mem :=
  writeBytes
    (writeBytes zeroMem 0
      (u32Bytes 3 ++ u32Bytes bits3p0 ++ u32Bytes bits3p0 ++ u32Bytes bits3p0))
    32 (u32Bytes bits3p0 ++ u32Bytes bits3p0 ++ u32Bytes bits3p0)

/-- The float32 bit pattern of `3.0f` denotes the rational 3. -/
theorem f32Val_bits3p0 : f32Val bits3p0 = 3 := by
  norm_num [f32Val, f32SignBit, f32ExpField, f32MantField, bits3p0]

/-- Claim C1 (code bug): the spec says a completed CalculateWindow cycle
leaves the byte length 4 at offset 0 of the output region and the
result's raw float32 bytes at offsets 4..7.  The code instead executes
`MISOBuffer[0] = result` through a `volatile double *`, storing the
result as an 8-byte float64 at offset 0, and then overwrites bytes 0..3
with the size; bytes 4..7 are left holding the upper half of the float64
encoding, not the float32 result bytes.  Evaluated at the failing input:
command 1, count 3, all samples `3.0f` (present at the spec offsets and
at the offsets the code reads), for which the engine result is exactly 3
(bit pattern `0x40400000`, bytes `[0, 0, 64, 64]`): the final output
region holds `[4,0,0,0, 0,0,8,64]`, and bytes 4..7 are `[0,0,8,64]` —
the upper half of float64 3.0 — not the claimed float32 bytes. -/
theorem c1_output_layout_code_bug :
    (sampleBatchRead mosiC1).map f32Val = [3, 3, 3] ∧
    getWeightedMean [(3 : ℝ), 3, 3] = 3 ∧
    f32Val bits3p0 = 3 ∧
    (List.range 8).map (runCycle (fun _ => bits3p0) 1 mosiC1 initState).miso =
      [4, 0, 0, 0, 0, 0, 8, 64] ∧
    u32Bytes bits3p0 = [0, 0, 64, 64] ∧
    [(runCycle (fun _ => bits3p0) 1 mosiC1 initState).miso 4,
      (runCycle (fun _ => bits3p0) 1 mosiC1 initState).miso 5,
      (runCycle (fun _ => bits3p0) 1 mosiC1 initState).miso 6,
      (runCycle (fun _ => bits3p0) 1 mosiC1 initState).miso 7] ≠ u32Bytes bits3p0 := by
  refine ⟨?_, ?_, f32Val_bits3p0, by decide, by decide, by decide⟩
  · have hbatch : sampleBatchRead mosiC1 = [bits3p0, bits3p0, bits3p0] := by decide
    rw [hbatch]
    simp [f32Val_bits3p0]
  · have h := getWeightedMean_const 3 (3 : ℝ) (by norm_num)
    simpa [List.replicate] using h

/-- MOSI contents for the C2 scenario: sample count 1 at offset 0 and the
single sample `1.0f` at offset 4, exactly as the spec's input layout
prescribes; every other byte (in particular bytes 32..35) is zero. -/
def mosiC2 : Mem := writeBytes zeroMem 0 (u32Bytes 1 ++ u32Bytes bits1p0)

/-- Claim C2 (code bug): the spec says the sample batch is read as
consecutive float32 words starting at byte offset 4.  The code computes
the sample pointer as `MOSIBuffer + sizeof(uint32_t)` on a
`volatile double *`, which advances by `4 * sizeof(double) = 32` bytes,
so the floats are actually read from byte offset 32 onward.  At the
failing input (count 1, sample `1.0f` at offset 4, zeros elsewhere) the
batch the code passes to the engine is `[0]` (the zero word at offset
32), not the stored sample `[0x3F800000]`. -/
theorem c2_sample_offset_code_bug :
    readU32 mosiC2 0 = 1 ∧
    sampleBatchSpec mosiC2 = [bits1p0] ∧
    sampleBatchRead mosiC2 = [0] ∧
    sampleBatchRead mosiC2 ≠ sampleBatchSpec mosiC2 := by decide

/-- MOSI contents for the C3 scenario: the 32-bit word at offset 0 holds
the sample count 65536. -/
def mosiC3 : Mem := writeBytes zeroMem 0 (u32Bytes 65536)

/-- Claim C3 (code bug): the spec says the sample count is the full
32-bit unsigned word at offset 0, in particular for counts ≥ 65536.  The
code assigns `MOSIBufferUInt[0]` to a `uint16_t`, truncating it modulo
65536: for the stored count 65536 the loop uses count 0 and passes the
empty batch to the engine. -/
theorem c3_count_truncation_code_bug :
    readU32 mosiC3 0 = 65536 ∧ sampleCount mosiC3 = 0 ∧
    sampleBatchRead mosiC3 = [] := by decide

/-! ### Claims about the state machine (C4, C5) -/

/-- Counterexample to claim C4: the claim says that on a command value
outside {0, 1} the indicator stays inactive throughout the cycle.  In the
code the LED store `*mmioSoCControl = 0xffffffff` (line 80) happens
before the command value is inspected by the `switch`, so the cycle for
command 2 (entered with the LED off and a zeroed output region) does
contain a state with the indicator active. -/
theorem c4_counterexample :
    ¬ (∀ st ∈ cycleTrace (fun _ => 0) 2 zeroMem initState, st.ledOn = false) := by
  intro h
  have ht : cycleTrace (fun _ => 0) 2 zeroMem initState =
      [⟨.waitingForCommand, false, zeroMem⟩, ⟨.calculating, false, zeroMem⟩,
        ⟨.calculating, true, zeroMem⟩, ⟨.invalidCommand, true, zeroMem⟩,
        ⟨.invalidCommand, false, zeroMem⟩] := rfl
  have h2 := h ⟨.calculating, true, zeroMem⟩
    (by rw [ht]; exact List.mem_cons_of_mem _ (List.mem_cons_of_mem _ (List.mem_cons_self _ _)))
  simp at h2

/-- Claim C4 as amended: on any command value `c ≥ 2` the cycle sets the
status to Calculating and activates the indicator before inspecting the
command, then sets status to InvalidCommand without writing to the output
region and without invoking the engine (the trace is independent of the
engine), and deactivates the indicator at the end of the cycle. -/
theorem c4_invalid_command (e : List Nat → Nat) (c : Nat) (hc : 2 ≤ c)
    (mosi : Mem) (s : SoCState) :
    (runCycle e c mosi s).status = SoCStatus.invalidCommand ∧
    (runCycle e c mosi s).miso = s.miso ∧
    (runCycle e c mosi s).ledOn = false ∧
    (cycleTrace e c mosi s).map SoCState.status =
      [.waitingForCommand, .calculating, .calculating, .invalidCommand,
        .invalidCommand] ∧
    (cycleTrace e c mosi s).map SoCState.ledOn = [s.ledOn, s.ledOn, true, true, false] ∧
    (∀ e' : List Nat → Nat, cycleTrace e' c mosi s = cycleTrace e c mosi s) := by
  have h0 : c ≠ 0 := by omega
  have h1 : c ≠ 1 := by omega
  refine ⟨?_, ?_, ?_, ?_, ?_, fun e' => ?_⟩ <;>
    simp [runCycle, cycleTrace, h0, h1, List.getLastD]

/-- Witness for `c4_invalid_command` at command value 2, entered from
`initState` with a zeroed input region and the engine that returns 0. -/
theorem c4_invalid_command_witness :
    2 ≤ 2 ∧
    ((runCycle (fun _ => 0) 2 zeroMem initState).status = SoCStatus.invalidCommand ∧
      (runCycle (fun _ => 0) 2 zeroMem initState).miso = initState.miso ∧
      (runCycle (fun _ => 0) 2 zeroMem initState).ledOn = false ∧
      (cycleTrace (fun _ => 0) 2 zeroMem initState).map SoCState.status =
        [.waitingForCommand, .calculating, .calculating, .invalidCommand,
          .invalidCommand] ∧
      (cycleTrace (fun _ => 0) 2 zeroMem initState).map SoCState.ledOn =
        [initState.ledOn, initState.ledOn, true, true, false] ∧
      (∀ e' : List Nat → Nat,
        cycleTrace e' 2 zeroMem initState = cycleTrace (fun _ => 0) 2 zeroMem initState)) :=
  ⟨by decide, c4_invalid_command (fun _ => 0) 2 (by decide) zeroMem initState⟩

/-- Counterexample to claim C5: the claim says the indicator is active
only while the status register holds Calculating (deactivated no later
than the moment status becomes Done).  In the code `*mmioStatus =
kSignaloidSoCStatusDone` (line 117) executes before `*mmioSoCControl =
0x00000000` (line 128), so the CalculateWindow cycle contains a state
with status Done and the indicator still active. -/
theorem c5_counterexample :
    ¬ (∀ st ∈ cycleTrace (fun _ => 0) 1 zeroMem initState,
        st.ledOn = true → st.status = SoCStatus.calculating) := by
  intro h
  have h2 := h ⟨.done, true,
      writeBytes (writeBytes zeroMem 0 (u64Bytes (f64OfF32Bits 0))) 0 (u32Bytes 4)⟩ ?mem
  · simp at h2
  case mem =>
    have ht : cycleTrace (fun _ => 0) 1 zeroMem initState =
        [⟨.waitingForCommand, false, zeroMem⟩, ⟨.calculating, false, zeroMem⟩,
          ⟨.calculating, true, zeroMem⟩,
          ⟨.calculating, true, writeBytes zeroMem 0 (u64Bytes (f64OfF32Bits 0))⟩,
          ⟨.calculating, true,
            writeBytes (writeBytes zeroMem 0 (u64Bytes (f64OfF32Bits 0))) 0 (u32Bytes 4)⟩,
          ⟨.done, true,
            writeBytes (writeBytes zeroMem 0 (u64Bytes (f64OfF32Bits 0))) 0 (u32Bytes 4)⟩,
          ⟨.done, false,
            writeBytes (writeBytes zeroMem 0 (u64Bytes (f64OfF32Bits 0))) 0 (u32Bytes 4)⟩] :=
      rfl
    rw [ht]
    exact List.mem_cons_of_mem _ (List.mem_cons_of_mem _ (List.mem_cons_of_mem _
      (List.mem_cons_of_mem _ (List.mem_cons_of_mem _ (List.mem_cons_self _ _)))))

/-- Claim C5 as amended: in a CalculateWindow cycle entered with the
indicator inactive, the status register transitions in order
WaitingForCommand, then Calculating, then Done; the indicator is active
only while the status holds Calculating or Done, is activated on entering
Calculating, and is deactivated in the store immediately following the
one that sets status to Done (so the cycle ends with the indicator
inactive), rather than no later than the moment status becomes Done. -/
theorem c5_calculate_window_cycle (e : List Nat → Nat) (mosi : Mem)
    (s : SoCState) (hled : s.ledOn = false) :
    (cycleTrace e 1 mosi s).map SoCState.status =
      [.waitingForCommand, .calculating, .calculating, .calculating,
        .calculating, .done, .done] ∧
    (cycleTrace e 1 mosi s).map SoCState.ledOn =
      [false, false, true, true, true, true, false] ∧
    (∀ st ∈ cycleTrace e 1 mosi s, st.ledOn = true →
      (st.status = SoCStatus.calculating ∨ st.status = SoCStatus.done)) ∧
    (runCycle e 1 mosi s).ledOn = false := by
  refine ⟨?_, ?_, ?_, ?_⟩ <;>
    simp [runCycle, cycleTrace, hled, List.getLastD, List.forall_mem_cons]

/-- Witness for `c5_calculate_window_cycle` with the zero engine, a
zeroed input region, and `initState` (whose indicator is inactive). -/
theorem c5_calculate_window_cycle_witness :
    initState.ledOn = false ∧
    ((cycleTrace (fun _ => 0) 1 zeroMem initState).map SoCState.status =
      [.waitingForCommand, .calculating, .calculating, .calculating,
        .calculating, .done, .done] ∧
    (cycleTrace (fun _ => 0) 1 zeroMem initState).map SoCState.ledOn =
      [false, false, true, true, true, true, false] ∧
    (∀ st ∈ cycleTrace (fun _ => 0) 1 zeroMem initState, st.ledOn = true →
      (st.status = SoCStatus.calculating ∨ st.status = SoCStatus.done)) ∧
    (runCycle (fun _ => 0) 1 zeroMem initState).ledOn = false) :=
  ⟨rfl, c5_calculate_window_cycle (fun _ => 0) zeroMem initState rfl⟩

/-! ### Claim C9: the cycle is a deterministic, stateless function of the
command and the input region -/

/-- Re-doing the two output-region stores of a CalculateWindow cycle
(8 result bytes at offset 0, then 4 size bytes at offset 0) over their own
result changes nothing: the stores depend only on the values written, and
bytes past offset 8 pass through. -/
theorem writeBytes_pair_idem (m : Mem) (b8 b4 : List Nat)
    (h8 : b8.length = 8) (h4 : b4.length = 4) :
    writeBytes (writeBytes (writeBytes (writeBytes m 0 b8) 0 b4) 0 b8) 0 b4 =
      writeBytes (writeBytes m 0 b8) 0 b4 := by
  funext a
  by_cases ha4 : a < 4
  · simp [writeBytes, h8, h4, ha4]
  · by_cases ha8 : a < 8
    · simp [writeBytes, h8, h4, ha4, ha8]
    · simp [writeBytes, h8, h4, ha4, ha8]

/-- Claim C9: issuing CalculateWindow, letting the cycle complete, and
re-issuing it with the identical input region yields the identical final
state — in particular an identical output region.  The cycle's writes are
a function of the command and the input region only; no state is carried
between cycles.  `e` is the (deterministic) engine, universally
quantified, so this holds for the real `getWeightedMean` in particular. -/
theorem c9_recalculation_idempotent (e : List Nat → Nat) (mosi : Mem)
    (s : SoCState) :
    runCycle e 1 mosi (runCycle e 1 mosi s) = runCycle e 1 mosi s := by
  simp only [runCycle_eq]
  norm_num
  exact writeBytes_pair_idem s.miso
    (u64Bytes (f64OfF32Bits (e (sampleBatchRead mosi)))) (u32Bytes 4) rfl rfl

/-! ### Claims about the engine (C6, C7, C8, C10) -/

/-- Claim C6: every sample `v` of the batch is paired, in the weighted
sample array `getWeightedMean` builds, with the weight
`exp(-(v - mean)^2 / (2 * variance))` when the fitted variance is
strictly positive, and with the weight 1 when the fitted variance is
non-positive; the degenerate branch is an ordinary, total computation,
not an error path. -/
theorem c6_gaussian_weights (values : List ℝ) (v : ℝ) (hv : v ∈ values) :
    (v, gaussWeight (distMean values) (distVariance values) v) ∈
      weightedSamplesOf (distMean values) (distVariance values) values ∧
    (0 < distVariance values →
      gaussWeight (distMean values) (distVariance values) v =
        Real.exp (-(v - distMean values) ^ 2 / (2 * distVariance values))) ∧
    (distVariance values ≤ 0 →
      gaussWeight (distMean values) (distVariance values) v = 1) := by
  refine ⟨List.mem_map.mpr ⟨v, hv, rfl⟩, fun h => ?_, fun h => ?_⟩
  · rw [gaussWeight, if_pos h, pow_two]
  · rw [gaussWeight, if_neg (not_lt.mpr h)]

/-- Witness for `c6_gaussian_weights` on the batch `[3]` and its sample 3. -/
theorem c6_gaussian_weights_witness :
    (3 : ℝ) ∈ [(3 : ℝ)] ∧
    (((3 : ℝ), gaussWeight (distMean [3]) (distVariance [3]) 3) ∈
        weightedSamplesOf (distMean [3]) (distVariance [3]) [3] ∧
      (0 < distVariance [3] →
        gaussWeight (distMean [3]) (distVariance [3]) 3 =
          Real.exp (-((3 : ℝ) - distMean [3]) ^ 2 / (2 * distVariance [3]))) ∧
      (distVariance [3] ≤ 0 →
        gaussWeight (distMean [3]) (distVariance [3]) 3 = 1)) :=
  ⟨by simp, c6_gaussian_weights [3] 3 (by simp)⟩

/-- Claim C7: with the external weighted combination modelled as the
weight-normalized aggregation `Σ vᵢ·wᵢ / Σ wᵢ` (as
`combineWeightedSamples` is), a non-empty constant batch yields exactly
the common value, and a singleton batch yields exactly its sample. -/
theorem c7_const_and_singleton (k : ℝ) (n : ℕ) (hn : 0 < n) :
    getWeightedMean (List.replicate n k) = k ∧ getWeightedMean [k] = k := by
  refine ⟨getWeightedMean_const n k hn, ?_⟩
  simpa using getWeightedMean_const 1 k Nat.one_pos

/-- Witness for `c7_const_and_singleton`: the constant batch
`[5, 5, 5]` and the singleton `[5]`. -/
theorem c7_const_and_singleton_witness :
    0 < 3 ∧
    (getWeightedMean (List.replicate 3 (5 : ℝ)) = 5 ∧
      getWeightedMean [(5 : ℝ)] = 5) :=
  ⟨by decide, c7_const_and_singleton 5 3 (by decide)⟩

/-- Claim C8: `getWeightedMean` is invariant under any permutation of a
non-empty sample batch — the fitted mean and variance are functions of
the sample multiset, the weight of a sample does not depend on its
position, and the aggregation is a quotient of sums. -/
theorem c8_permutation_invariant (l l' : List ℝ) (_hne : l ≠ [])
    (h : l.Perm l') : getWeightedMean l = getWeightedMean l' := by
  have hmean : distMean l = distMean l' := by
    rw [distMean, distMean, h.length_eq, h.sum_eq]
  have hvar : distVariance l = distVariance l' := by
    rw [distVariance, distVariance, h.length_eq, hmean,
      (h.map fun v => (v - distMean l') ^ 2).sum_eq]
  rw [getWeightedMean, getWeightedMean, hmean, hvar, combineWeightedSamples,
    combineWeightedSamples, weightedSamplesOf, weightedSamplesOf,
    (((h.map fun v => (v, gaussWeight (distMean l') (distVariance l') v)).map
      fun p => p.1 * p.2)).sum_eq,
    ((h.map fun v => (v, gaussWeight (distMean l') (distVariance l') v)).map
      Prod.snd).sum_eq]

/-- Witness for `c8_permutation_invariant` on `[1, 2]` and its
transposition `[2, 1]`. -/
theorem c8_permutation_invariant_witness :
    ([1, 2] : List ℝ) ≠ [] ∧ ([1, 2] : List ℝ).Perm [2, 1] ∧
      getWeightedMean [(1 : ℝ), 2] = getWeightedMean [2, 1] :=
  ⟨by simp, List.Perm.swap 2 1 [],
    c8_permutation_invariant [1, 2] [2, 1] (by simp) (List.Perm.swap 2 1 [])⟩

/-- Claim C10: every weight `getWeightedMean` computes lies in `(0, 1]` —
it is 1 in the degenerate branch, and in the Gaussian branch the exponent
is non-positive because the variance is positive, so the exponential is
positive and at most 1; hence the sum of the weights of a non-empty batch
is strictly positive. -/
theorem c10_weights_in_unit_interval (values : List ℝ) (hne : values ≠ []) :
    (∀ v ∈ values,
      0 < gaussWeight (distMean values) (distVariance values) v ∧
        gaussWeight (distMean values) (distVariance values) v ≤ 1) ∧
    0 < ((weightedSamplesOf (distMean values) (distVariance values) values).map
      Prod.snd).sum := by
  have key : ∀ mean var v : ℝ,
      0 < gaussWeight mean var v ∧ gaussWeight mean var v ≤ 1 := by
    intro mean var v
    unfold gaussWeight
    split_ifs with h
    · refine ⟨Real.exp_pos _, Real.exp_le_one_iff.mpr ?_⟩
      apply div_nonpos_of_nonpos_of_nonneg
      · exact neg_nonpos.mpr (mul_self_nonneg _)
      · linarith
    · exact ⟨one_pos, le_refl 1⟩
  refine ⟨fun v _ => key _ _ v, ?_⟩
  apply List.sum_pos
  · intro x hx
    rw [weightedSamplesOf, List.map_map] at hx
    obtain ⟨v, hv, rfl⟩ := List.mem_map.mp hx
    exact (key _ _ v).1
  · simp [weightedSamplesOf, hne]

/-- Witness for `c10_weights_in_unit_interval` on the batch `[2]`. -/
theorem c10_weights_in_unit_interval_witness :
    ([2] : List ℝ) ≠ [] ∧
    ((∀ v ∈ ([2] : List ℝ),
      0 < gaussWeight (distMean [2]) (distVariance [2]) v ∧
        gaussWeight (distMean [2]) (distVariance [2]) v ≤ 1) ∧
    0 < ((weightedSamplesOf (distMean [2]) (distVariance [2]) [2]).map
      Prod.snd).sum) :=
  ⟨by simp, c10_weights_in_unit_interval [2] (by simp)⟩
